import Mathlib

/-!
Shallow embedding of src/StackScope.h (StackScope, a stack/heap memory
monitor for the ATmega328P) and proofs about its operations.

Machine integers: all C variables involved are uint8_t/uint16_t; they are
modelled as Nat, with an explicit `% 65536` exactly where the C's 16-bit
unsigned arithmetic can wrap.  RAM bytes are a function from addresses to
byte values.  The hardware state read by the accessors (the SP register,
the libc symbols __brkval and __heap_start) is part of the machine state.
-/

namespace StackScope

/-- 2^16, the modulus of the AVR's 16-bit unsigned arithmetic. -/
def U16 : Nat := 65536

/-- STACKSCOPE_HEADER. -/
def HEADER : Nat := 0xFE

/-- STACKSCOPE_HANDSHAKE. -/
def HANDSHAKE : Nat := 0xA5

/-- STACKSCOPE_RATE_LIMIT (default). -/
def RATE_LIMIT : Nat := 256

/-- STACKSCOPE_ALERT_THRESHOLD (default). -/
def ALERT_THRESHOLD : Nat := 50

/-- STACKSCOPE_PAINT_PATTERN. -/
def PAINT_PATTERN : Nat := 0xAA

/-- RAMEND of the ATmega328P (from avr/io.h): 0x0100 + 2048 - 1. -/
def RAMEND : Nat := 0x08FF

/-- STACKSCOPE_FLAG_ALERT = 1 <<< 0. -/
def FLAG_ALERT : Nat := 1

/-- STACKSCOPE_FLAG_COLLISION = 1 <<< 1. -/
def FLAG_COLLISION : Nat := 2

/-- STACKSCOPE_FLAG_PEAK_NEW = 1 <<< 2. -/
def FLAG_PEAK_NEW : Nat := 4

/-- STACKSCOPE_FLAG_HEAP_ACTIVE = 1 <<< 3. -/
def FLAG_HEAP_ACTIVE : Nat := 8

/-- The whole machine state the header's code touches: the four
stackscope_* globals, plus the hardware/libc state the accessors read
(SP register, __brkval, the address of __heap_start) and the RAM bytes. -/
structure Machine where
  enabled : Bool
  call_counter : Nat
  peak_usage : Nat
  painted_end : Nat
  sp : Nat
  brkval : Nat
  heap_start : Nat
  mem : Nat → Nat

/-- StackScope_GetSP: reads the stack-pointer register. -/
def GetSP (m : Machine) : Nat := m.sp

/-- StackScope_GetHeapUsage: 0 if __brkval == 0, else
(uint16_t)__brkval - (uint16_t)&__heap_start. -/
def GetHeapUsage (m : Machine) : Nat :=
  if m.brkval = 0 then 0 else (m.brkval + U16 - m.heap_start) % U16

/-- StackScope_GetHeapEnd: &__heap_start if __brkval == 0, else __brkval. -/
def GetHeapEnd (m : Machine) : Nat :=
  if m.brkval = 0 then m.heap_start else m.brkval

/-- One byte store: mem[a] = v. -/
def updateMem (mem : Nat → Nat) (a v : Nat) : Nat → Nat :=
  fun x => if x = a then v else mem x

/-- The for loop of StackScope_PaintStack: starting at p, write the paint
pattern to n consecutive ascending addresses (n = paint_end - paint_start
iterations of the C loop). -/
def paintLoop (mem : Nat → Nat) (p : Nat) : Nat → (Nat → Nat)
  | 0 => mem
  | n + 1 => paintLoop (updateMem mem p PAINT_PATTERN) (p + 1) n

/-- StackScope_PaintStack: paint_start = heap end, paint_end = sp - 32
(16-bit arithmetic); if paint_end > paint_start, fill
[paint_start, paint_end) with the pattern and record
stackscope_painted_end = paint_end, else do nothing. -/
def PaintStack (m : Machine) : Machine :=
  let sp := GetSP m
  let heap_end := GetHeapEnd m
  let paint_start := heap_end
  let paint_end := (sp + U16 - 32) % U16
  if paint_start < paint_end then
    { m with mem := paintLoop m.mem paint_start (paint_end - paint_start),
             painted_end := paint_end }
  else m

/-- The while loop of StackScope_GetPaintedUsage: scan holds the current
address, the fuel argument is the number of remaining loop iterations
(scan - heap_end at entry, so the loop exits with scan = heap_end when
every byte matched, and never runs when scan <= heap_end). -/
def scanLoop (mem : Nat → Nat) : Nat → Nat → Nat
  | scan, 0 => scan
  | scan, n + 1 => if mem scan ≠ PAINT_PATTERN then scan else scanLoop mem (scan - 1) n

/-- StackScope_GetPaintedUsage: RAMEND - SP when nothing was painted yet,
else RAMEND - (the address where the downward sentinel scan stopped),
in 16-bit arithmetic. -/
def GetPaintedUsage (m : Machine) : Nat :=
  if m.painted_end = 0 then (RAMEND + U16 - GetSP m) % U16
  else (RAMEND + U16 - scanLoop m.mem m.painted_end (m.painted_end - GetHeapEnd m)) % U16

/-- StackScope_SendWord: high byte first, then low byte. -/
def SendWord (d : Nat) : List Nat := [d / 256 % 256, d % 256]

/-- StackScope_IsHandshakeByte. -/
def IsHandshakeByte (b : Nat) : Bool := b == HANDSHAKE

/-- StackScope_TriggerHandshake: stackscope_enabled = 1, then repaint. -/
def TriggerHandshake (m : Machine) : Machine :=
  PaintStack { m with enabled := true }

/-- StackScope_GetPeak. -/
def GetPeak (m : Machine) : Nat := m.peak_usage

/-- StackScope_ResetPeak. -/
def ResetPeak (m : Machine) : Machine := { m with peak_usage := 0 }

/-- StackScope_Init. -/
def Init (m : Machine) : Machine :=
  PaintStack { m with enabled := false, call_counter := 0, peak_usage := 0 }

/-- The sampling tail of StackScope_Check (everything after the rate-limit
gate), taking the state with the call counter already incremented; returns
the new state and the bytes pushed to the UART. -/
def sample (m1 : Machine) : Machine × List Nat :=
  let stack_usage := GetPaintedUsage m1
  let heap_usage := GetHeapUsage m1
  let heap_end := GetHeapEnd m1
  let sp := GetSP m1
  let free_memory := if heap_end < sp then sp - heap_end else 0
  let m2 := if m1.peak_usage < stack_usage then { m1 with peak_usage := stack_usage } else m1
  let flags :=
    (if m1.peak_usage < stack_usage then FLAG_PEAK_NEW else 0) |||
    (if free_memory < ALERT_THRESHOLD then FLAG_ALERT else 0) |||
    (if sp ≤ (heap_end + 16) % U16 then FLAG_COLLISION else 0) |||
    (if 0 < heap_usage then FLAG_HEAP_ACTIVE else 0)
  (m2, [HEADER, flags] ++ SendWord stack_usage ++ SendWord m2.peak_usage ++
       SendWord heap_usage ++ SendWord free_memory)

/-- StackScope_Check: return untouched when disabled; otherwise increment
the 16-bit call counter, return unless counter & (RATE_LIMIT - 1) == 0,
else run the sampling tail. -/
def Check (m : Machine) : Machine × List Nat :=
  if m.enabled = false then (m, [])
  else
    let m1 := { m with call_counter := (m.call_counter + 1) % U16 }
    if m1.call_counter &&& (RATE_LIMIT - 1) ≠ 0 then (m1, [])
    else sample m1

/-- The live hardware state the monitor observes between two Check calls:
stack pointer, heap break, RAM contents.  A trace of these drives a run. -/
structure Env where
  sp : Nat
  brkval : Nat
  mem : Nat → Nat

/-- Load an observation of the live hardware state into the machine. -/
def setEnv (m : Machine) (e : Env) : Machine :=
  { m with sp := e.sp, brkval := e.brkval, mem := e.mem }

/-- Run Check once per environment observation; collect the byte output of
each call separately. -/
def runTrace : Machine → List Env → Machine × List (List Nat)
  | m, [] => (m, [])
  | m, e :: es =>
      let step := Check (setEnv m e)
      let rest := runTrace step.1 es
      (rest.1, step.2 :: rest.2)

/-- Arithmetic shadow of the rate limiter: given the counter's residue
mod 256, how many of the next n Check calls sample. -/
def countAux : Nat → Nat → Nat
  | _, 0 => 0
  | c, n + 1 => (if (c + 1) % 256 = 0 then 1 else 0) + countAux ((c + 1) % 256) n

/-- The scan's stop address exactly as the specification words it: scanning
downward from pe toward he, the first address whose byte is not the
sentinel pattern, or the heap boundary he if every scanned byte equals the
sentinel.  This is the spec-side definition, to be compared with the
code-side scanLoop. -/
def specScanStop (mem : Nat → Nat) (he pe : Nat) : Nat :=
  (((List.range' (he + 1) (pe - he)).reverse).find? (fun a => mem a != PAINT_PATTERN)).getD he

/-- A state reachable after a paint followed by heap growth past the painted
boundary: painted_end = 0x300 while the heap break sits above it at 0x400. -/
def mC1 : Machine := Machine.mk true 0 0 0x0300 0x0320 0x0400 0x0200 (fun _ => PAINT_PATTERN)

/-- A painted state whose sentinel run from the boundary down stops at 0x280. -/
def mW1 : Machine :=
  Machine.mk true 0 0 0x02E0 0x0320 0x0250 0x0200
    (fun a => if a ≤ 0x0280 then 0 else PAINT_PATTERN)

/-- An enabled state one call before a sample, with an empty heap. -/
def mW2 : Machine := Machine.mk true 255 0 0 0x08F0 0 0x0200 (fun _ => 0)

/-- A state whose next sample raises all four flag bits at once. -/
def mAllC2 : Machine := Machine.mk true 255 0 0 0x0305 0x0300 0x0200 (fun _ => 0)

/-- A freshly enabled state with the counter at zero. -/
def mRL : Machine := Machine.mk true 0 0 0 0 0 0 (fun _ => 0)

/-- A trace of 256 identical hardware observations. -/
def esRL : List Env := List.replicate 256 (Env.mk 0 0 (fun _ => 0))

/-- A disabled state with nonzero counter and peak. -/
def mW4 : Machine := Machine.mk false 7 5 3 0x0300 0 0x0200 (fun _ => 0)

/-- A hardware observation used to drive disabled Check calls. -/
def eW4 : Env := Env.mk 0x0280 0 (fun _ => 0)

/-- An enabled state one call before a sample, zero peak. -/
def mW5 : Machine := Machine.mk true 255 0 0 0x08F0 0 0x0200 (fun _ => 0)

/-- A state with room between heap end 0x250 and sp - 32 = 0x300. -/
def mW6 : Machine := Machine.mk true 0 0 0 0x0320 0x0250 0x0200 (fun _ => 0)

/-- An enabled state one call before a sample. -/
def mW7 : Machine := Machine.mk true 255 0 0 0x08F0 0 0x0200 (fun _ => 0)

/-- An enabled state one call before a sample, with __brkval = 0. -/
def mW9 : Machine := Machine.mk true 255 0 0 0x08F0 0 0x0200 (fun _ => 0)

lemma land_rate_limit (n : Nat) : n &&& (RATE_LIMIT - 1) = n % 256 := by
  have h255 : RATE_LIMIT - 1 = 2 ^ 8 - 1 := rfl
  have h256 : (256 : Nat) = 2 ^ 8 := rfl
  rw [h255, h256]
  apply Nat.eq_of_testBit_eq
  intro i
  rw [Nat.testBit_land, Nat.testBit_two_pow_sub_one, Nat.testBit_mod_two_pow,
    Bool.and_comm]

lemma mod_u16_mod_256 (n : Nat) : n % U16 % 256 = n % 256 :=
  Nat.mod_mod_of_dvd n ⟨256, rfl⟩

lemma check_disabled (m : Machine) (h : m.enabled = false) : Check m = (m, []) := by
  simp [Check, h]

lemma check_not_sampling (m : Machine) (h1 : m.enabled = true)
    (h2 : (m.call_counter + 1) % 256 ≠ 0) :
    Check m = ({ m with call_counter := (m.call_counter + 1) % U16 }, []) := by
  have hl : ((m.call_counter + 1) % U16) &&& (RATE_LIMIT - 1) ≠ 0 := by
    rw [land_rate_limit, mod_u16_mod_256]; exact h2
  simp [Check, h1, hl]

lemma check_sampling_eq (m : Machine) (h1 : m.enabled = true)
    (h2 : (m.call_counter + 1) % 256 = 0) :
    Check m = sample { m with call_counter := (m.call_counter + 1) % U16 } := by
  have hl : ((m.call_counter + 1) % U16) &&& (RATE_LIMIT - 1) = 0 := by
    rw [land_rate_limit, mod_u16_mod_256]; exact h2
  simp [Check, h1, hl]

lemma check_fst_fields (m : Machine) :
    (Check m).1.enabled = m.enabled ∧ (Check m).1.painted_end = m.painted_end ∧
    (Check m).1.mem = m.mem ∧ (Check m).1.sp = m.sp ∧
    (Check m).1.brkval = m.brkval ∧ (Check m).1.heap_start = m.heap_start := by
  unfold Check sample
  by_cases h : m.enabled = false
  · simp [h]
  · rw [if_neg h]
    dsimp only
    split
    · exact ⟨rfl, rfl, rfl, rfl, rfl, rfl⟩
    · split
      · exact ⟨rfl, rfl, rfl, rfl, rfl, rfl⟩
      · exact ⟨rfl, rfl, rfl, rfl, rfl, rfl⟩

lemma check_counter (m : Machine) (h1 : m.enabled = true) :
    (Check m).1.call_counter = (m.call_counter + 1) % U16 := by
  by_cases h2 : (m.call_counter + 1) % 256 = 0
  · rw [check_sampling_eq m h1 h2]
    unfold sample
    dsimp only
    split <;> rfl
  · rw [check_not_sampling m h1 h2]

lemma check_peak_le (m : Machine) : m.peak_usage ≤ (Check m).1.peak_usage := by
  unfold Check sample
  by_cases h : m.enabled = false
  · simp [h]
  · rw [if_neg h]
    dsimp only
    split
    · exact le_refl _
    · split
      · next hlt => exact le_of_lt hlt
      · exact le_refl _

lemma check_emits_iff (m : Machine) (h1 : m.enabled = true) :
    (Check m).2 ≠ [] ↔ (m.call_counter + 1) % 256 = 0 := by
  by_cases h2 : (m.call_counter + 1) % 256 = 0
  · rw [check_sampling_eq m h1 h2]
    unfold sample
    dsimp only
    simp [h2, SendWord]
  · rw [check_not_sampling m h1 h2]
    simp [h2]

lemma sub_wrap_mod (a b : Nat) (hb : b ≤ a) (ha : a < U16) :
    (a + U16 - b) % U16 = a - b := by
  have ha2 : a < 65536 := ha
  show (a + 65536 - b) % 65536 = a - b
  omega

lemma paintLoop_get (a : Nat) :
    ∀ n mem p, paintLoop mem p n a = if p ≤ a ∧ a < p + n then PAINT_PATTERN else mem a := by
  intro n
  induction n with
  | zero =>
    intro mem p
    rw [paintLoop, if_neg]
    omega
  | succ k ih =>
    intro mem p
    rw [paintLoop, ih]
    unfold updateMem
    rcases Nat.lt_trichotomy a p with h | h | h
    · rw [if_neg (by omega), if_neg (by omega), if_neg (by omega)]
    · rw [if_neg (by omega), if_pos h, if_pos (by omega)]
    · by_cases hin : a < p + (k + 1)
      · rw [if_pos (by omega), if_pos (by omega)]
      · rw [if_neg (by omega), if_neg (by omega), if_neg (by omega)]

lemma scanLoop_spec (mem : Nat → Nat) :
    ∀ n scan, n ≤ scan →
      (scanLoop mem scan n = scan - n ∧
        ∀ b, scan - n < b → b ≤ scan → mem b = PAINT_PATTERN) ∨
      (scan - n < scanLoop mem scan n ∧ scanLoop mem scan n ≤ scan ∧
        mem (scanLoop mem scan n) ≠ PAINT_PATTERN ∧
        ∀ b, scanLoop mem scan n < b → b ≤ scan → mem b = PAINT_PATTERN) := by
  intro n
  induction n with
  | zero =>
    intro scan _
    left
    refine ⟨rfl, ?_⟩
    intro b hb1 hb2
    omega
  | succ k ih =>
    intro scan hle
    rw [scanLoop]
    by_cases hmem : mem scan = PAINT_PATTERN
    · rw [if_neg (by simp [hmem])]
      rcases ih (scan - 1) (by omega) with ⟨heq, hall⟩ | ⟨h1, h2, h3, h4⟩
      · left
        constructor
        · rw [heq]; omega
        · intro b hb1 hb2
          by_cases hb : b = scan
          · rw [hb]; exact hmem
          · exact hall b (by omega) (by omega)
      · right
        refine ⟨by omega, by omega, h3, ?_⟩
        intro b hb1 hb2
        by_cases hb : b = scan
        · rw [hb]; exact hmem
        · exact h4 b hb1 (by omega)
    · rw [if_pos hmem]
      right
      refine ⟨by omega, le_refl _, hmem, ?_⟩
      intro b hb1 hb2
      omega

lemma specScanStop_base (mem : Nat → Nat) (he pe : Nat) (h : pe ≤ he) :
    specScanStop mem he pe = he := by
  unfold specScanStop
  rw [Nat.sub_eq_zero_of_le h]
  rfl

lemma specScanStop_rec (mem : Nat → Nat) (he pe : Nat) (h : he < pe) :
    specScanStop mem he pe =
      if mem pe ≠ PAINT_PATTERN then pe else specScanStop mem he (pe - 1) := by
  unfold specScanStop
  have hn : pe - he = (pe - 1 - he) + 1 := by omega
  rw [hn, List.range'_concat]
  have hpe : he + 1 + 1 * (pe - 1 - he) = pe := by omega
  rw [hpe, List.reverse_append, List.reverse_singleton, List.singleton_append]
  by_cases hmem : mem pe = PAINT_PATTERN
  · rw [List.find?_cons_of_neg _ (by simp [hmem]), if_neg (by simp [hmem])]
  · rw [List.find?_cons_of_pos _ (by simp [hmem]), if_pos hmem]
    rfl

lemma scanLoop_eq_specScanStop (mem : Nat → Nat) (he : Nat) :
    ∀ pe, he < pe → scanLoop mem pe (pe - he) = specScanStop mem he pe := by
  intro pe
  induction pe using Nat.strong_induction_on with
  | _ pe ih =>
    intro h
    have hn : pe - he = (pe - 1 - he) + 1 := by omega
    rw [hn, scanLoop, specScanStop_rec mem he pe h]
    by_cases hmem : mem pe = PAINT_PATTERN
    · rw [if_neg (by simp [hmem]), if_neg (by simp [hmem])]
      by_cases hh : he < pe - 1
      · exact ih (pe - 1) (by omega) hh
      · have hpe1 : pe - 1 = he := by omega
        rw [hpe1, specScanStop_base mem he he (le_refl he)]
        have h0 : he - he = 0 := by omega
        rw [h0, scanLoop]
    · rw [if_pos hmem, if_pos hmem]

lemma runTrace_count (es : List Env) :
    ∀ m : Machine, m.enabled = true →
      ((runTrace m es).2.filter (fun o => !o.isEmpty)).length
        = countAux (m.call_counter % 256) es.length := by
  induction es with
  | nil =>
    intro m _
    simp [runTrace, countAux]
  | cons e es ih =>
    intro m h1
    have hen : (setEnv m e).enabled = true := h1
    have hen2 : (Check (setEnv m e)).1.enabled = true := by
      rw [(check_fst_fields (setEnv m e)).1]; exact hen
    have hcondeq : (m.call_counter % 256 + 1) % 256 = (m.call_counter + 1) % 256 := by
      omega
    have hmod : (Check (setEnv m e)).1.call_counter % 256 = (m.call_counter + 1) % 256 := by
      rw [check_counter _ hen]
      show (m.call_counter + 1) % U16 % 256 = _
      rw [mod_u16_mod_256]
    have hemit : (Check (setEnv m e)).2 ≠ [] ↔ (m.call_counter + 1) % 256 = 0 :=
      check_emits_iff (setEnv m e) hen
    show (((Check (setEnv m e)).2 :: (runTrace (Check (setEnv m e)).1 es).2).filter
        (fun o => !o.isEmpty)).length = countAux (m.call_counter % 256) (es.length + 1)
    rw [countAux, hcondeq]
    by_cases he : (m.call_counter + 1) % 256 = 0
    · have hne : (Check (setEnv m e)).2 ≠ [] := hemit.mpr he
      have hb : ((Check (setEnv m e)).2.isEmpty) = false := by
        simp [List.isEmpty_iff, hne]
      simp only [List.filter_cons, hb, Bool.not_false, if_true, List.length_cons]
      rw [ih _ hen2, hmod, if_pos he]
      omega
    · have heq : (Check (setEnv m e)).2 = [] := by
        by_contra hc
        exact he (hemit.mp hc)
      have hb : ((Check (setEnv m e)).2.isEmpty) = true := by
        simp [List.isEmpty_iff, heq]
      simp only [List.filter_cons, hb, Bool.not_true, Bool.false_eq_true, if_false]
      rw [ih _ hen2, hmod, if_neg he]
      omega

set_option maxRecDepth 4000 in
lemma countAux_256 : ∀ c, c < 256 → countAux c 256 = 1 := by decide

lemma paintStack_fields (m : Machine) :
    (PaintStack m).enabled = m.enabled ∧ (PaintStack m).call_counter = m.call_counter ∧
    (PaintStack m).peak_usage = m.peak_usage := by
  unfold PaintStack
  dsimp only
  split
  · exact ⟨rfl, rfl, rfl⟩
  · exact ⟨rfl, rfl, rfl⟩

lemma if_lt_eq_max (a b : Nat) : (if a < b then b else a) = max a b := by
  rcases Nat.lt_or_ge a b with h | h
  · rw [if_pos h, Nat.max_eq_right (Nat.le_of_lt h)]
  · rw [if_neg (Nat.not_lt.mpr h), Nat.max_eq_left h]

lemma sample_snd (m1 : Machine) :
    (sample m1).2 = HEADER ::
      ((if m1.peak_usage < GetPaintedUsage m1 then FLAG_PEAK_NEW else 0) |||
       (if (if GetHeapEnd m1 < GetSP m1 then GetSP m1 - GetHeapEnd m1 else 0) <
           ALERT_THRESHOLD then FLAG_ALERT else 0) |||
       (if GetSP m1 ≤ (GetHeapEnd m1 + 16) % U16 then FLAG_COLLISION else 0) |||
       (if 0 < GetHeapUsage m1 then FLAG_HEAP_ACTIVE else 0)) ::
      GetPaintedUsage m1 / 256 % 256 :: GetPaintedUsage m1 % 256 ::
      (if m1.peak_usage < GetPaintedUsage m1 then GetPaintedUsage m1 else
        m1.peak_usage) / 256 % 256 ::
      (if m1.peak_usage < GetPaintedUsage m1 then GetPaintedUsage m1 else
        m1.peak_usage) % 256 ::
      GetHeapUsage m1 / 256 % 256 :: GetHeapUsage m1 % 256 ::
      (if GetHeapEnd m1 < GetSP m1 then GetSP m1 - GetHeapEnd m1 else 0) / 256 % 256 ::
      (if GetHeapEnd m1 < GetSP m1 then GetSP m1 - GetHeapEnd m1 else 0) % 256 :: [] := by
  by_cases hpk : m1.peak_usage < GetPaintedUsage m1
  · simp [sample, SendWord, hpk]
  · simp [sample, SendWord, hpk]

lemma sample_flags (m1 : Machine) :
    (sample m1).2.getD 1 0 =
      (if m1.peak_usage < GetPaintedUsage m1 then FLAG_PEAK_NEW else 0) |||
      (if (if GetHeapEnd m1 < GetSP m1 then GetSP m1 - GetHeapEnd m1 else 0) <
          ALERT_THRESHOLD then FLAG_ALERT else 0) |||
      (if GetSP m1 ≤ (GetHeapEnd m1 + 16) % U16 then FLAG_COLLISION else 0) |||
      (if 0 < GetHeapUsage m1 then FLAG_HEAP_ACTIVE else 0) := by
  rw [sample_snd]
  rfl

lemma sample_fst_peak (m1 : Machine) :
    (sample m1).1.peak_usage =
      if m1.peak_usage < GetPaintedUsage m1 then GetPaintedUsage m1 else m1.peak_usage := by
  by_cases hpk : m1.peak_usage < GetPaintedUsage m1
  · simp [sample, hpk]
  · simp [sample, hpk]

/-- C10: for every call of Check, in every state, the enabled flag, the
painted boundary, the RAM contents and the hardware state are unchanged —
Check never repaints and never writes memory; the only monitor fields it
may modify are the call counter and the peak. -/
theorem check_frame_effect (m : Machine) :
    (Check m).1.enabled = m.enabled ∧ (Check m).1.painted_end = m.painted_end ∧
    (Check m).1.mem = m.mem ∧ (Check m).1.sp = m.sp ∧
    (Check m).1.brkval = m.brkval ∧ (Check m).1.heap_start = m.heap_start :=
  check_fst_fields m

/-- C8: TriggerHandshake sets enabled and invokes the painter; it leaves
the peak and the call counter unchanged (so re-triggering is idempotent up
to repainting), and neither Check nor ResetPeak ever changes the enabled
flag, so no operation can take enabled from true back to false. -/
theorem handshake_machine (m : Machine) :
    (TriggerHandshake m).enabled = true ∧
    (TriggerHandshake m).peak_usage = m.peak_usage ∧
    (TriggerHandshake m).call_counter = m.call_counter ∧
    TriggerHandshake m = PaintStack { m with enabled := true } ∧
    (Check m).1.enabled = m.enabled ∧
    (ResetPeak m).enabled = m.enabled := by
  refine ⟨?_, ?_, ?_, rfl, (check_fst_fields m).1, rfl⟩
  · show (PaintStack { m with enabled := true }).enabled = true
    rw [(paintStack_fields _).1]
  · show (PaintStack { m with enabled := true }).peak_usage = m.peak_usage
    rw [(paintStack_fields _).2.2]
  · show (PaintStack { m with enabled := true }).call_counter = m.call_counter
    rw [(paintStack_fields _).2.1]

/-- C4: while disabled, any number of Check calls (under any sequence of
hardware observations) emits no transport bytes and leaves every monitor
field — enabled, sample counter, peak, painted boundary — unchanged. -/
theorem disabled_noop (m : Machine) (es : List Env) (h : m.enabled = false) :
    (runTrace m es).1.enabled = false ∧
    (runTrace m es).1.call_counter = m.call_counter ∧
    (runTrace m es).1.peak_usage = m.peak_usage ∧
    (runTrace m es).1.painted_end = m.painted_end ∧
    ∀ o ∈ (runTrace m es).2, o = [] := by
  induction es generalizing m with
  | nil =>
    refine ⟨h, rfl, rfl, rfl, ?_⟩
    intro o ho
    simp [runTrace] at ho
  | cons e es ih =>
    have hen : (setEnv m e).enabled = false := h
    have hchk : Check (setEnv m e) = (setEnv m e, []) := check_disabled _ hen
    have hstep : (runTrace m (e :: es)).1 = (runTrace (Check (setEnv m e)).1 es).1 := rfl
    have hout : (runTrace m (e :: es)).2
        = (Check (setEnv m e)).2 :: (runTrace (Check (setEnv m e)).1 es).2 := rfl
    obtain ⟨i1, i2, i3, i4, i5⟩ := ih (setEnv m e) hen
    rw [hchk] at hstep hout
    refine ⟨by rw [hstep]; exact i1, by rw [hstep]; exact i2, by rw [hstep]; exact i3,
      by rw [hstep]; exact i4, ?_⟩
    intro o ho
    rw [hout] at ho
    rcases List.mem_cons.mp ho with h1 | h1
    · exact h1
    · exact i5 o h1

/-- C4 witness: two disabled calls on a concrete state. -/
theorem disabled_noop_witness :
    mW4.enabled = false ∧
    (runTrace mW4 [eW4, eW4]).1.call_counter = mW4.call_counter ∧
    (runTrace mW4 [eW4, eW4]).1.peak_usage = mW4.peak_usage ∧
    ∀ o ∈ (runTrace mW4 [eW4, eW4]).2, o = [] := by
  have h := disabled_noop mW4 [eW4, eW4] rfl
  exact ⟨rfl, h.2.1, h.2.2.1, h.2.2.2.2⟩

/-- C3: while enabled, every Check increments the 16-bit counter; a frame
goes out exactly when the incremented counter is 0 mod RATE_LIMIT; and any
256 consecutive enabled Check calls transmit exactly one frame, whatever
the starting counter value (wraparound included). -/
theorem rate_limit_exact (m : Machine) (es : List Env) (h1 : m.enabled = true) :
    (Check m).1.call_counter = (m.call_counter + 1) % U16 ∧
    ((Check m).2 ≠ [] ↔ ((m.call_counter + 1) % U16) % RATE_LIMIT = 0) ∧
    (es.length = 256 → ((runTrace m es).2.filter (fun o => !o.isEmpty)).length = 1) := by
  refine ⟨check_counter m h1, ?_, ?_⟩
  · rw [check_emits_iff m h1]
    show _ ↔ (m.call_counter + 1) % U16 % 256 = 0
    rw [mod_u16_mod_256]
  · intro hlen
    rw [runTrace_count es m h1, hlen]
    exact countAux_256 _ (Nat.mod_lt _ (by norm_num))

/-- C3 witness: a concrete enabled state and a 256-call trace. -/
theorem rate_limit_exact_witness :
    mRL.enabled = true ∧ esRL.length = 256 ∧
    ((runTrace mRL esRL).2.filter (fun o => !o.isEmpty)).length = 1 := by
  have hlen : esRL.length = 256 := by
    show (List.replicate 256 (Env.mk 0 0 (fun _ => 0))).length = 256
    rw [List.length_replicate]
  exact ⟨rfl, hlen, (rate_limit_exact mRL esRL rfl).2.2 hlen⟩

/-- C9: with __brkval = 0 (no heap allocation ever), the heap end reads as
heap_start, heap usage is reported as exactly zero, and every frame Check
emits in such a state has the HeapActive bit (bit 3) clear. -/
theorem heap_never_allocated (m : Machine) (h : m.brkval = 0) :
    GetHeapEnd m = m.heap_start ∧ GetHeapUsage m = 0 ∧
    ((Check m).2 = [] ∨ ((Check m).2.getD 1 0).testBit 3 = false) := by
  refine ⟨by simp [GetHeapEnd, h], by simp [GetHeapUsage, h], ?_⟩
  by_cases h1 : m.enabled = true
  · by_cases h2 : (m.call_counter + 1) % 256 = 0
    · right
      rw [check_sampling_eq m h1 h2, sample_flags]
      have hu : GetHeapUsage { m with call_counter := (m.call_counter + 1) % U16 } = 0 := by
        simp [GetHeapUsage, h]
      rw [hu]
      by_cases hPk : ({ m with call_counter := (m.call_counter + 1) % U16 } :
            Machine).peak_usage <
          GetPaintedUsage { m with call_counter := (m.call_counter + 1) % U16 } <;>
        by_cases hA : (if GetHeapEnd { m with call_counter := (m.call_counter + 1) % U16 } <
              GetSP { m with call_counter := (m.call_counter + 1) % U16 } then
              GetSP { m with call_counter := (m.call_counter + 1) % U16 } -
                GetHeapEnd { m with call_counter := (m.call_counter + 1) % U16 } else 0) <
            ALERT_THRESHOLD <;>
        by_cases hC : GetSP { m with call_counter := (m.call_counter + 1) % U16 } ≤
            (GetHeapEnd { m with call_counter := (m.call_counter + 1) % U16 } + 16) % U16 <;>
        simp [hPk, hA, hC, FLAG_PEAK_NEW, FLAG_ALERT, FLAG_COLLISION] <;> decide
    · left
      rw [check_not_sampling m h1 h2]
  · left
    rw [check_disabled m (by simpa using h1)]

/-- C9 witness: a sampling call on a concrete never-allocated state. -/
theorem heap_never_allocated_witness :
    mW9.brkval = 0 ∧ GetHeapUsage mW9 = 0 ∧
    ((Check mW9).2 = [] ∨ ((Check mW9).2.getD 1 0).testBit 3 = false) := by
  have h := heap_never_allocated mW9 rfl
  exact ⟨rfl, h.2.1, h.2.2⟩

/-- C2: on a sampling Check, bit 0 (Alert) of the flags byte is set iff
free memory (max 0 (stack top - heap break)) is below the 50-byte
threshold, bit 1 (Collision) iff stack top <= heap break + 16, bit 3
(HeapActive) iff heap usage is positive; the bits are independent of one
another, and some state sets all four simultaneously. -/
theorem check_flags_policy (m : Machine) (h1 : m.enabled = true)
    (h2 : (m.call_counter + 1) % 256 = 0) (hhe : GetHeapEnd m + 16 < U16) :
    (((Check m).2.getD 1 0).testBit 0 = true ↔ m.sp - GetHeapEnd m < ALERT_THRESHOLD) ∧
    (((Check m).2.getD 1 0).testBit 1 = true ↔ m.sp ≤ GetHeapEnd m + 16) ∧
    (((Check m).2.getD 1 0).testBit 3 = true ↔ 0 < GetHeapUsage m) ∧
    (∃ mAll : Machine, mAll.enabled = true ∧ (Check mAll).2.getD 1 0 = 15) := by
  have hflags : (Check m).2.getD 1 0 =
      (if m.peak_usage < GetPaintedUsage m then FLAG_PEAK_NEW else 0) |||
      (if (if GetHeapEnd m < m.sp then m.sp - GetHeapEnd m else 0) <
          ALERT_THRESHOLD then FLAG_ALERT else 0) |||
      (if m.sp ≤ (GetHeapEnd m + 16) % U16 then FLAG_COLLISION else 0) |||
      (if 0 < GetHeapUsage m then FLAG_HEAP_ACTIVE else 0) := by
    rw [check_sampling_eq m h1 h2]
    exact sample_flags { m with call_counter := (m.call_counter + 1) % U16 }
  have hfree : (if GetHeapEnd m < m.sp then m.sp - GetHeapEnd m else 0)
      = m.sp - GetHeapEnd m := by
    split <;> omega
  have hcoll : (GetHeapEnd m + 16) % U16 = GetHeapEnd m + 16 := Nat.mod_eq_of_lt hhe
  rw [hfree, hcoll] at hflags
  rw [hflags]
  refine ⟨?_, ?_, ?_, ⟨mAllC2, rfl, by decide⟩⟩ <;>
    (by_cases hPk : m.peak_usage < GetPaintedUsage m <;>
     by_cases hA : m.sp - GetHeapEnd m < ALERT_THRESHOLD <;>
     by_cases hC : m.sp ≤ GetHeapEnd m + 16 <;>
     by_cases hH : 0 < GetHeapUsage m <;>
     simp [hPk, hA, hC, hH, FLAG_PEAK_NEW, FLAG_ALERT, FLAG_COLLISION,
       FLAG_HEAP_ACTIVE] <;> decide)

/-- C2 witness: a concrete sampling state discharging the hypotheses. -/
theorem check_flags_policy_witness :
    (mW2.enabled = true ∧ (mW2.call_counter + 1) % 256 = 0 ∧ GetHeapEnd mW2 + 16 < U16) ∧
    (((Check mW2).2.getD 1 0).testBit 3 = true ↔ 0 < GetHeapUsage mW2) :=
  ⟨⟨rfl, by decide, by decide⟩, (check_flags_policy mW2 rfl (by decide) (by decide)).2.2.1⟩

/-- C5: the peak is monotonically non-decreasing over any sequence of
Check calls under any stack-depth trace; ResetPeak sets it to exactly 0;
and on a sampling call the peak is raised to the current usage exactly
when the current usage exceeds it, which is also exactly when the PeakNew
bit (bit 2) of the emitted flags byte is set. -/
theorem peak_tracking (m : Machine) (es : List Env) :
    m.peak_usage ≤ (runTrace m es).1.peak_usage ∧
    (ResetPeak m).peak_usage = 0 ∧
    (m.enabled = true → (m.call_counter + 1) % 256 = 0 →
      (Check m).1.peak_usage = max m.peak_usage (GetPaintedUsage m) ∧
      (((Check m).2.getD 1 0).testBit 2 = true ↔ m.peak_usage < GetPaintedUsage m)) := by
  refine ⟨?_, rfl, ?_⟩
  · induction es generalizing m with
    | nil => exact le_refl _
    | cons e es ih =>
      exact le_trans (check_peak_le (setEnv m e)) (ih (Check (setEnv m e)).1)
  · intro h1 h2
    constructor
    · rw [check_sampling_eq m h1 h2]
      have hp : (sample { m with call_counter := (m.call_counter + 1) % U16 }).1.peak_usage
          = if m.peak_usage < GetPaintedUsage m then GetPaintedUsage m else m.peak_usage :=
        sample_fst_peak { m with call_counter := (m.call_counter + 1) % U16 }
      rw [hp, if_lt_eq_max]
    · have hflags : (Check m).2.getD 1 0 =
          (if m.peak_usage < GetPaintedUsage m then FLAG_PEAK_NEW else 0) |||
          (if (if GetHeapEnd m < m.sp then m.sp - GetHeapEnd m else 0) <
              ALERT_THRESHOLD then FLAG_ALERT else 0) |||
          (if m.sp ≤ (GetHeapEnd m + 16) % U16 then FLAG_COLLISION else 0) |||
          (if 0 < GetHeapUsage m then FLAG_HEAP_ACTIVE else 0) := by
        rw [check_sampling_eq m h1 h2]
        exact sample_flags { m with call_counter := (m.call_counter + 1) % U16 }
      rw [hflags]
      by_cases hPk : m.peak_usage < GetPaintedUsage m <;>
        by_cases hA : (if GetHeapEnd m < m.sp then m.sp - GetHeapEnd m else 0) <
          ALERT_THRESHOLD <;>
        by_cases hC : m.sp ≤ (GetHeapEnd m + 16) % U16 <;>
        by_cases hH : 0 < GetHeapUsage m <;>
        simp [hPk, hA, hC, hH, FLAG_PEAK_NEW, FLAG_ALERT, FLAG_COLLISION,
          FLAG_HEAP_ACTIVE] <;> decide

/-- C5 witness: a concrete sampling state and the empty trace. -/
theorem peak_tracking_witness :
    mW5.enabled = true ∧ (mW5.call_counter + 1) % 256 = 0 ∧
    (Check mW5).1.peak_usage = max mW5.peak_usage (GetPaintedUsage mW5) ∧
    mW5.peak_usage ≤ (runTrace mW5 []).1.peak_usage := by
  have h := peak_tracking mW5 []
  have h3 := h.2.2 rfl (by decide)
  exact ⟨rfl, by decide, h3.1, h.1⟩

/-- C7: a sampling Check emits exactly 10 bytes: the header 0xFE, the
flags byte, then stack usage, (updated) peak usage, heap usage and free
memory, each as a 16-bit value with the most significant byte first. -/
theorem frame_layout (m : Machine) (h1 : m.enabled = true)
    (h2 : (m.call_counter + 1) % 256 = 0) :
    ((Check m).2).length = 10 ∧
    (Check m).2 = HEADER :: ((Check m).2.getD 1 0) ::
      GetPaintedUsage m / 256 % 256 :: GetPaintedUsage m % 256 ::
      max m.peak_usage (GetPaintedUsage m) / 256 % 256 ::
      max m.peak_usage (GetPaintedUsage m) % 256 ::
      GetHeapUsage m / 256 % 256 :: GetHeapUsage m % 256 ::
      (m.sp - GetHeapEnd m) / 256 % 256 :: (m.sp - GetHeapEnd m) % 256 :: [] := by
  have hsnd : (Check m).2 = HEADER ::
      ((if m.peak_usage < GetPaintedUsage m then FLAG_PEAK_NEW else 0) |||
       (if (if GetHeapEnd m < m.sp then m.sp - GetHeapEnd m else 0) <
           ALERT_THRESHOLD then FLAG_ALERT else 0) |||
       (if m.sp ≤ (GetHeapEnd m + 16) % U16 then FLAG_COLLISION else 0) |||
       (if 0 < GetHeapUsage m then FLAG_HEAP_ACTIVE else 0)) ::
      GetPaintedUsage m / 256 % 256 :: GetPaintedUsage m % 256 ::
      (if m.peak_usage < GetPaintedUsage m then GetPaintedUsage m else
        m.peak_usage) / 256 % 256 ::
      (if m.peak_usage < GetPaintedUsage m then GetPaintedUsage m else
        m.peak_usage) % 256 ::
      GetHeapUsage m / 256 % 256 :: GetHeapUsage m % 256 ::
      (if GetHeapEnd m < m.sp then m.sp - GetHeapEnd m else 0) / 256 % 256 ::
      (if GetHeapEnd m < m.sp then m.sp - GetHeapEnd m else 0) % 256 :: [] := by
    rw [check_sampling_eq m h1 h2]
    exact sample_snd { m with call_counter := (m.call_counter + 1) % U16 }
  have hflag : (Check m).2.getD 1 0 =
      (if m.peak_usage < GetPaintedUsage m then FLAG_PEAK_NEW else 0) |||
      (if (if GetHeapEnd m < m.sp then m.sp - GetHeapEnd m else 0) <
          ALERT_THRESHOLD then FLAG_ALERT else 0) |||
      (if m.sp ≤ (GetHeapEnd m + 16) % U16 then FLAG_COLLISION else 0) |||
      (if 0 < GetHeapUsage m then FLAG_HEAP_ACTIVE else 0) := by
    rw [hsnd]
    rfl
  have hfree : (if GetHeapEnd m < m.sp then m.sp - GetHeapEnd m else 0)
      = m.sp - GetHeapEnd m := by
    split <;> omega
  refine ⟨by rw [hsnd]; rfl, ?_⟩
  rw [hflag, hsnd, hfree, if_lt_eq_max]

/-- C7 witness: a concrete sampling state. -/
theorem frame_layout_witness :
    mW7.enabled = true ∧ (mW7.call_counter + 1) % 256 = 0 ∧
    ((Check mW7).2).length = 10 :=
  ⟨rfl, by decide, (frame_layout mW7 rfl (by decide)).1⟩

/-- C6: with paint_start = heap end and paint_end = sp - 32, a skipped
paint (paint_end <= paint_start) changes nothing at all; otherwise the
sentinel is written to every address in [paint_start, paint_end), to no
address at or above paint_end, and the painted boundary becomes
paint_end. -/
theorem paint_stack_bounds (m : Machine) (h32 : 32 ≤ m.sp) (hsp : m.sp < U16) :
    (m.sp - 32 ≤ GetHeapEnd m → PaintStack m = m) ∧
    (GetHeapEnd m < m.sp - 32 →
      (PaintStack m).painted_end = m.sp - 32 ∧
      (∀ a, GetHeapEnd m ≤ a → a < m.sp - 32 → (PaintStack m).mem a = PAINT_PATTERN) ∧
      (∀ a, m.sp - 32 ≤ a → (PaintStack m).mem a = m.mem a)) := by
  have hpe : (GetSP m + U16 - 32) % U16 = m.sp - 32 := by
    have h1 : m.sp < 65536 := hsp
    show (m.sp + 65536 - 32) % 65536 = m.sp - 32
    omega
  constructor
  · intro hle
    unfold PaintStack
    dsimp only
    rw [hpe, if_neg (by omega)]
  · intro hlt
    unfold PaintStack
    dsimp only
    rw [hpe, if_pos hlt]
    refine ⟨rfl, ?_, ?_⟩
    · intro a ha1 ha2
      show paintLoop m.mem (GetHeapEnd m) (m.sp - 32 - GetHeapEnd m) a = PAINT_PATTERN
      rw [paintLoop_get, if_pos (by omega)]
    · intro a ha
      show paintLoop m.mem (GetHeapEnd m) (m.sp - 32 - GetHeapEnd m) a = m.mem a
      rw [paintLoop_get, if_neg (by omega)]

/-- C6 witness: a concrete paint over [0x250, 0x300). -/
theorem paint_stack_bounds_witness :
    32 ≤ mW6.sp ∧ mW6.sp < U16 ∧ GetHeapEnd mW6 < mW6.sp - 32 ∧
    (PaintStack mW6).painted_end = mW6.sp - 32 ∧
    (PaintStack mW6).mem 0x0260 = PAINT_PATTERN ∧
    (PaintStack mW6).mem 0x0310 = mW6.mem 0x0310 := by
  have h := (paint_stack_bounds mW6 (by decide) (by decide)).2 (by decide)
  exact ⟨by decide, by decide, by decide, h.1,
    h.2.1 0x0260 (by decide) (by decide), h.2.2 0x0310 (by decide)⟩

/-- C1 counterexample: in a state where the heap break has passed the
painted boundary (painted_end = 0x300, heap end = 0x400, every byte the
sentinel), the scan body never runs and the function returns
RAMEND - painted_end = 0x5FF, while the claim as stated (stop at the
first non-sentinel address, or at the heap boundary when every scanned
byte is the sentinel) predicts RAMEND - 0x400 = 0x4FF. -/
theorem scanUsage_claim_counterexample :
    mC1.painted_end ≠ 0 ∧
    GetPaintedUsage mC1 ≠ RAMEND - specScanStop mC1.mem (GetHeapEnd mC1) mC1.painted_end := by
  decide

/-- C1 amended: if painted_end = 0 the function returns RAMEND - SP;
otherwise, when the heap boundary is below painted_end it returns RAMEND
minus the stop address exactly as the claim describes it (specScanStop);
and in the remaining case — painted_end at or below the heap boundary —
the scan performs no iteration and it returns RAMEND - painted_end. -/
theorem scanUsage_amended (m : Machine) (hsp : m.sp ≤ RAMEND) (hpe : m.painted_end ≤ RAMEND) :
    (m.painted_end = 0 → GetPaintedUsage m = RAMEND - m.sp) ∧
    (m.painted_end ≠ 0 → GetHeapEnd m < m.painted_end →
      GetPaintedUsage m = RAMEND - specScanStop m.mem (GetHeapEnd m) m.painted_end) ∧
    (m.painted_end ≠ 0 → m.painted_end ≤ GetHeapEnd m →
      GetPaintedUsage m = RAMEND - m.painted_end) := by
  refine ⟨?_, ?_, ?_⟩
  · intro h0
    unfold GetPaintedUsage
    rw [if_pos h0, sub_wrap_mod RAMEND (GetSP m) hsp (by decide)]
    rfl
  · intro h0 hlt
    have hstop := scanLoop_eq_specScanStop m.mem (GetHeapEnd m) m.painted_end hlt
    have hb := scanLoop_spec m.mem (m.painted_end - GetHeapEnd m) m.painted_end (by omega)
    have hle : scanLoop m.mem m.painted_end (m.painted_end - GetHeapEnd m) ≤ m.painted_end := by
      rcases hb with ⟨heq, _⟩ | ⟨_, h2, _, _⟩
      · rw [heq]; omega
      · exact h2
    unfold GetPaintedUsage
    rw [if_neg h0, sub_wrap_mod RAMEND _ (le_trans hle hpe) (by decide), hstop]
  · intro h0 hle
    unfold GetPaintedUsage
    rw [if_neg h0]
    have hz : m.painted_end - GetHeapEnd m = 0 := by omega
    rw [hz]
    show (RAMEND + U16 - scanLoop m.mem m.painted_end 0) % U16 = RAMEND - m.painted_end
    rw [scanLoop, sub_wrap_mod RAMEND m.painted_end hpe (by decide)]

/-- C1 witness for the amended statement: a painted state whose sentinel
run stops at 0x280, so usage is RAMEND - 0x280. -/
theorem scanUsage_amended_witness :
    mW1.sp ≤ RAMEND ∧ mW1.painted_end ≤ RAMEND ∧ mW1.painted_end ≠ 0 ∧
    GetHeapEnd mW1 < mW1.painted_end ∧
    GetPaintedUsage mW1 = RAMEND - specScanStop mW1.mem (GetHeapEnd mW1) mW1.painted_end := by
  refine ⟨by decide, by decide, by decide, by decide, ?_⟩
  exact (scanUsage_amended mW1 (by decide) (by decide)).2.1 (by decide) (by decide)

end StackScope
